import Mathlib

/-!
Shallow embedding of `Source/HoudiniEngineEditor/Private/HoudiniEngineEditor.cpp`
(the `FHoudiniEngineEditor` module of the Houdini Engine for Unreal plugin).

The file is editor glue code: every routine reads host-engine state (selected
actors, components found by object iterators, the asset registry, dialog
results) and issues calls into host APIs.  Each routine is embedded as a pure
Lean function over an explicit record of the host state it reads; the calls it
issues into host APIs are returned as values (call traces, counters, lists of
call targets), so that the guard conditions, counts and loop structure of the
C++ can be proved about the embedding.
-/

set_option linter.unusedVariables false

namespace HoudiniEngineEditor

/-! ## Houdini asset components

A `UHoudiniAssetComponent` as this module observes it: the predicates the
module queries on it (`IsComponentValid`, `IsValidLowLevel`,
`IsInstantiatingOrCooking`), whether the host call
`FHoudiniEngineBakeUtils::ReplaceHoudiniActorWithBlueprint` on it returns
success, and the ticking flag set by `StartHoudiniTicking`. -/

structure UHoudiniAssetComponent where
  isComponentValid : Bool
  isValidLowLevel : Bool
  isInstantiatingOrCooking : Bool
  replaceWithBlueprintSucceeds : Bool
  ticking : Bool
  deriving DecidableEq, Repr

/-! ## PauseAssetCooking / IsAssetCookingPaused (lines 1048-1097) -/

/-- The engine state `PauseAssetCooking` reads and writes: the
`EnableCookingGlobal` flag of `FHoudiniEngine`, and the asset components the
`TObjectIterator<UHoudiniAssetComponent>` loop visits (`none` models a null
component pointer). -/
structure FHoudiniEngineState where
  enableCookingGlobal : Bool
  components : List (Option UHoudiniAssetComponent)
  deriving DecidableEq, Repr

/-- The unpausing loop of `PauseAssetCooking` (lines 1071-1082): each non-null,
low-level-valid component gets `StartHoudiniTicking`; null or invalid
components are skipped with a log message. -/
def startHoudiniTickingAll (comps : List (Option UHoudiniAssetComponent)) :
    List (Option UHoudiniAssetComponent) :=
  comps.map (fun c =>
    match c with
    | none => none
    | some hac =>
      if !hac.isValidLowLevel then some hac
      else some { hac with ticking := true })

/-- Embeds `FHoudiniEngineEditor::PauseAssetCooking` (lines 1048-1082): negates the
global cooking flag; when the new flag enables cooking (unpausing), each valid
component is ticked. -/
def pauseAssetCooking (s : FHoudiniEngineState) : FHoudiniEngineState :=
  let currentEnableCookingGlobal := !s.enableCookingGlobal
  let s1 : FHoudiniEngineState := { s with enableCookingGlobal := currentEnableCookingGlobal }
  if !currentEnableCookingGlobal then s1
  else { s1 with components := startHoudiniTickingAll s1.components }

/-- Embeds `FHoudiniEngineEditor::IsAssetCookingPaused` (lines 1093-1097). -/
def isAssetCookingPaused (s : FHoudiniEngineState) : Bool :=
  !s.enableCookingGlobal

/-! ## GetWorldSelection (lines 1314-1353) -/

/-- An `AActor` as `GetWorldSelection` observes it: the name of its class
(`none` models a null `GetClass()` pointer), and, when the actor casts to
`AHoudiniAssetActor`, the component pointer `GetHoudiniAssetComponent()`
returns (outer `none`: the cast fails; inner `none`: a null component). -/
structure AActor where
  className : Option String
  houdiniAssetComponent : Option (Option UHoudiniAssetComponent)
  deriving DecidableEq, Repr

/-- The editor state `GetWorldSelection` reads: whether `GEditor` is non-null,
and the result of `Cast<AActor>` on each object of the actor selection
(`none` models a selected object that is not an actor). -/
structure UEditorEngine where
  gEditorAvailable : Bool
  selectedActors : List (Option AActor)
  deriving DecidableEq, Repr

/-- Embeds `Actor->GetClass() ? Actor->GetClass()->GetName() : FString()`
(line 1330). -/
def actorClassNameString (a : AActor) : String :=
  match a.className with
  | some n => n
  | none => ""

/-- One iteration of the `FSelectionIterator` loop of `GetWorldSelection`
(lines 1323-1337): skip non-actors, skip actors whose class name is
`BP_Sky_Sphere_C`, append everything else. -/
def worldSelectionStep (acc : List AActor) (it : Option AActor) : List AActor :=
  match it with
  | none => acc
  | some actor =>
    if actorClassNameString actor == "BP_Sky_Sphere_C" then acc
    else acc ++ [actor]

/-- The actors collected by the selection loop of `GetWorldSelection`
(lines 1320-1338), starting from the emptied output array. -/
def selectedWorldActors (ed : UEditorEngine) : List AActor :=
  if ed.gEditorAvailable then ed.selectedActors.foldl worldSelectionStep []
  else []

/-- Embeds `FHoudiniEngineEditor::GetWorldSelection` (lines 1314-1353).
`worldSelection` is the previous content of the caller-supplied output array;
`WorldSelection.Empty()` (line 1317) discards it.  When
`bHoudiniAssetActorsOnly` is set, the backwards removal loop of lines
1344-1349 keeps exactly the actors that cast to `AHoudiniAssetActor`
(modelled as a filter, which produces the same list).  Returns the final
array content and `WorldSelection.Num()`. -/
def getWorldSelection (ed : UEditorEngine) (worldSelection : List AActor)
    (bHoudiniAssetActorsOnly : Bool) : List AActor × Nat :=
  let ws := selectedWorldActors ed
  let ws :=
    if bHoudiniAssetActorsOnly then
      ws.filter (fun a => a.houdiniAssetComponent.isSome)
    else ws
  (ws, ws.length)

/-! ## BakeAllAssets (lines 997-1037) and BakeSelection (lines 1233-1285) -/

/-- The shared per-component bake body (lines 1015-1028 and 1264-1276): when
the component is valid and not instantiating or cooking,
`ReplaceHoudiniActorWithBlueprint` is called on it (the component is appended
to the call list) and `BakedCount` is incremented exactly when that call
returns success. -/
def bakeStep (acc : Nat × List UHoudiniAssetComponent) (hac : UHoudiniAssetComponent) :
    Nat × List UHoudiniAssetComponent :=
  if !hac.isComponentValid then acc
  else if !hac.isInstantiatingOrCooking then
    if hac.replaceWithBlueprintSucceeds then (acc.1 + 1, acc.2 ++ [hac])
    else (acc.1, acc.2 ++ [hac])
  else acc

/-- Embeds `FHoudiniEngineEditor::BakeAllAssets` (lines 997-1037): iterates the
object iterator results (`none` models a null component, skipped with an
error log).  Returns `BakedCount` and the list of components
`ReplaceHoudiniActorWithBlueprint` was called on. -/
def bakeAllAssets (components : List (Option UHoudiniAssetComponent)) :
    Nat × List UHoudiniAssetComponent :=
  components.foldl (fun acc c =>
    match c with
    | none => acc
    | some hac => bakeStep acc hac) (0, [])

/-- Embeds `FHoudiniEngineEditor::BakeSelection` (lines 1233-1285): takes the world
selection restricted to Houdini asset actors; returns without baking when it
is empty; otherwise runs the bake body on each selected actor's component
(skipping failed casts and null or invalid components).  Returns `BakedCount`
and the list of components `ReplaceHoudiniActorWithBlueprint` was called
on. -/
def bakeSelection (ed : UEditorEngine) : Nat × List UHoudiniAssetComponent :=
  let sel := getWorldSelection ed [] true
  if sel.2 ≤ 0 then (0, [])
  else
    sel.1.foldl (fun acc actor =>
      match actor.houdiniAssetComponent with
      | none => acc
      | some none => acc
      | some (some hac) => bakeStep acc hac) (0, [])

/-! ## Menu command bindings (lines 322-380) and console commands
(lines 382-436) -/

/-- The handler member functions of `FHoudiniEngineEditor` that commands are
bound to. -/
inductive CommandHandler
  | openInHoudini
  | saveHIPFile
  | reportBug
  | cleanUpTempFolder
  | bakeAllAssets
  | pauseAssetCooking
  | recookSelection
  | rebuildSelection
  | bakeSelection
  | recookAllAssets
  | rebuildAllAssets
  deriving DecidableEq, Repr

/-- The UI commands of `FHoudiniEngineCommands` (registered in
`RegisterCommands`, lines 1355-1370). -/
inductive UICommand
  | OpenInHoudini
  | SaveHIPFile
  | ReportBug
  | CleanUpTempFolder
  | BakeAllAssets
  | PauseAssetCooking
  | CookSelec
  | RebuildSelec
  | BakeSelec
  deriving DecidableEq, Repr

/-- Embeds `FHoudiniEngineEditor::BindMenuCommands` (lines 322-380): the `MapAction`
calls, as (UI command, execute handler) pairs in source order. -/
def bindMenuCommands : List (UICommand × CommandHandler) :=
  [ (UICommand.OpenInHoudini, CommandHandler.openInHoudini),
    (UICommand.SaveHIPFile, CommandHandler.saveHIPFile),
    (UICommand.ReportBug, CommandHandler.reportBug),
    (UICommand.CleanUpTempFolder, CommandHandler.cleanUpTempFolder),
    (UICommand.BakeAllAssets, CommandHandler.bakeAllAssets),
    (UICommand.PauseAssetCooking, CommandHandler.pauseAssetCooking),
    (UICommand.CookSelec, CommandHandler.recookSelection),
    (UICommand.RebuildSelec, CommandHandler.rebuildSelection),
    (UICommand.BakeSelec, CommandHandler.bakeSelection) ]

/-- Embeds `FHoudiniEngineEditor::RegisterConsoleCommands` (lines 382-436): the
`FAutoConsoleCommand` registrations, as (console command name, handler) pairs
in source order. -/
def registerConsoleCommands : List (String × CommandHandler) :=
  [ ("Houdini.Open", CommandHandler.openInHoudini),
    ("Houdini.Save", CommandHandler.saveHIPFile),
    ("Houdini.BakeAll", CommandHandler.bakeAllAssets),
    ("Houdini.Clean", CommandHandler.cleanUpTempFolder),
    ("Houdini.Pause", CommandHandler.pauseAssetCooking),
    ("Houdini.CookAll", CommandHandler.recookAllAssets),
    ("Houdini.RebuildAll", CommandHandler.rebuildAllAssets),
    ("Houdini.Cook", CommandHandler.recookSelection),
    ("Houdini.Rebuild", CommandHandler.rebuildSelection),
    ("Houdini.Bake", CommandHandler.bakeSelection) ]

/-! ## StartupModule (lines 85-129) and ShutdownModule (lines 131-156)

Each `Register...`/`Unregister...` member is embedded as a function on a
record of registration flags, guarded exactly as in the source by the host
conditions it tests (`GUnrealEd`, `GEditor`, `IsRunningCommandlet`,
`FModuleManager::IsModuleLoaded`, `UObjectInitialized`,
`IPlacementModeModule::IsAvailable`, the `HOUDINI_MODE` compile switch, and
the `bHidePlacementModeHoudiniTools` setting). -/

namespace Lifecycle

/-- The host-editor conditions the registration and unregistration members
test. -/
structure HostEnv where
  gUnrealEd : Bool
  gEditor : Bool
  isRunningCommandlet : Bool
  propertyEditorModuleLoaded : Bool
  assetToolsModuleLoaded : Bool
  uObjectInitialized : Bool
  placementModeModuleAvailable : Bool
  houdiniModeDefined : Bool
  hidePlacementModeHoudiniTools : Bool
  deriving DecidableEq, Repr

/-- The registrations this module holds in the host editor, plus the
module-side validity flags (`SplineComponentVisualizer.IsValid()`,
`HandleComponentVisualizer.IsValid()`, `StyleSet.IsValid()`) that guard
them. -/
structure EditorRegistrations where
  assetTypeActionsRegistered : Bool
  assetBrokerRegistered : Bool
  splineVisualizerValid : Bool
  splineVisualizerRegistered : Bool
  handleVisualizerValid : Bool
  handleVisualizerRegistered : Bool
  detailsRegistered : Bool
  actorFactoryAdded : Bool
  styleSetValid : Bool
  styleSetRegistered : Bool
  thumbnailsRegistered : Bool
  menuCommandsBound : Bool
  mainMenuExtenderAdded : Bool
  consoleCommandsRegistered : Bool
  undoRegistered : Bool
  modesRegistered : Bool
  placementCategoryRegistered : Bool
  deriving DecidableEq, Repr

/-- Embeds `RegisterAssetTypeActions` (lines 229-235): unconditional
(`LoadModuleChecked` asserts on failure). -/
def registerAssetTypeActions (env : HostEnv) (r : EditorRegistrations) : EditorRegistrations :=
  { r with assetTypeActionsRegistered := true }

/-- Embeds `UnregisterAssetTypeActions` (lines 237-250): only when the AssetTools
module is still loaded. -/
def unregisterAssetTypeActions (env : HostEnv) (r : EditorRegistrations) : EditorRegistrations :=
  if env.assetToolsModuleLoaded then { r with assetTypeActionsRegistered := false } else r

/-- Embeds `RegisterAssetBrokers` (lines 259-265): unconditional. -/
def registerAssetBrokers (env : HostEnv) (r : EditorRegistrations) : EditorRegistrations :=
  { r with assetBrokerRegistered := true }

/-- Embeds `UnregisterAssetBrokers` (lines 267-275): defined in the source but never
called from `ShutdownModule`. -/
def unregisterAssetBrokers (env : HostEnv) (r : EditorRegistrations) : EditorRegistrations :=
  if env.uObjectInitialized then { r with assetBrokerRegistered := false } else r

/-- Embeds `RegisterComponentVisualizers` (lines 158-187): guarded by `GUnrealEd`;
each visualizer is created and registered only when its shared pointer is not
yet valid. -/
def registerComponentVisualizers (env : HostEnv) (r : EditorRegistrations) : EditorRegistrations :=
  if env.gUnrealEd then
    let r :=
      if !r.splineVisualizerValid then
        { r with splineVisualizerValid := true, splineVisualizerRegistered := true }
      else r
    if !r.handleVisualizerValid then
      { r with handleVisualizerValid := true, handleVisualizerRegistered := true }
    else r
  else r

/-- Embeds `UnregisterComponentVisualizers` (lines 189-200): guarded by `GUnrealEd`
and each visualizer pointer's validity. -/
def unregisterComponentVisualizers (env : HostEnv) (r : EditorRegistrations) :
    EditorRegistrations :=
  if env.gUnrealEd then
    let r := if r.splineVisualizerValid then { r with splineVisualizerRegistered := false } else r
    if r.handleVisualizerValid then { r with handleVisualizerRegistered := false } else r
  else r

/-- Embeds `RegisterDetails` (lines 202-214): unconditional. -/
def registerDetails (env : HostEnv) (r : EditorRegistrations) : EditorRegistrations :=
  { r with detailsRegistered := true }

/-- Embeds `UnregisterDetails` (lines 216-227): only when the PropertyEditor module
is still loaded. -/
def unregisterDetails (env : HostEnv) (r : EditorRegistrations) : EditorRegistrations :=
  if env.propertyEditorModuleLoaded then { r with detailsRegistered := false } else r

/-- Embeds `RegisterActorFactories` (lines 277-287): guarded by `GEditor`. -/
def registerActorFactories (env : HostEnv) (r : EditorRegistrations) : EditorRegistrations :=
  if env.gEditor then { r with actorFactoryAdded := true } else r

/-- Embeds `RegisterStyleSet` (lines 562-648): created and registered only when the
style-set pointer is not yet valid. -/
def registerStyleSet (env : HostEnv) (r : EditorRegistrations) : EditorRegistrations :=
  if !r.styleSetValid then { r with styleSetValid := true, styleSetRegistered := true } else r

/-- Embeds `UnregisterStyleSet` (lines 658-670): defined in the source but never
called from `ShutdownModule`. -/
def unregisterStyleSet (env : HostEnv) (r : EditorRegistrations) : EditorRegistrations :=
  if r.styleSetValid then { r with styleSetRegistered := false, styleSetValid := false } else r

/-- Embeds `RegisterThumbnails` (lines 814-818): unconditional. -/
def registerThumbnails (env : HostEnv) (r : EditorRegistrations) : EditorRegistrations :=
  { r with thumbnailsRegistered := true }

/-- Embeds `UnregisterThumbnails` (lines 820-825): only when `UObjectInitialized`. -/
def unregisterThumbnails (env : HostEnv) (r : EditorRegistrations) : EditorRegistrations :=
  if env.uObjectInitialized then { r with thumbnailsRegistered := false } else r

/-- Embeds `ExtendMenu` (lines 289-305): when not running a commandlet, binds the UI
commands (`BindMenuCommands`) and adds the main-menu extender. -/
def extendMenu (env : HostEnv) (r : EditorRegistrations) : EditorRegistrations :=
  if !env.isRunningCommandlet then
    { r with menuCommandsBound := true, mainMenuExtenderAdded := true }
  else r

/-- Embeds `RegisterConsoleCommands` (lines 382-436): registers the
`FAutoConsoleCommand` objects (function-local statics; they are never
unregistered by this module). -/
def registerConsoleCommandsState (env : HostEnv) (r : EditorRegistrations) :
    EditorRegistrations :=
  { r with consoleCommandsRegistered := true }

/-- Embeds `RegisterForUndo` (lines 672-677): guarded by `GUnrealEd`. -/
def registerForUndo (env : HostEnv) (r : EditorRegistrations) : EditorRegistrations :=
  if env.gUnrealEd then { r with undoRegistered := true } else r

/-- Embeds `UnregisterForUndo` (lines 679-684): guarded by `GUnrealEd`. -/
def unregisterForUndo (env : HostEnv) (r : EditorRegistrations) : EditorRegistrations :=
  if env.gUnrealEd then { r with undoRegistered := false } else r

/-- Embeds `RegisterModes` (lines 686-694): compiled only under `HOUDINI_MODE`. -/
def registerModes (env : HostEnv) (r : EditorRegistrations) : EditorRegistrations :=
  { r with modesRegistered := true }

/-- Embeds `UnregisterModes` (lines 696-700): compiled only under `HOUDINI_MODE`. -/
def unregisterModes (env : HostEnv) (r : EditorRegistrations) : EditorRegistrations :=
  { r with modesRegistered := false }

/-- Embeds `RegisterPlacementModeExtensions` (lines 702-748): returns early when
`bHidePlacementModeHoudiniTools` is set, else registers the placement
category. -/
def registerPlacementModeExtensions (env : HostEnv) (r : EditorRegistrations) :
    EditorRegistrations :=
  if env.hidePlacementModeHoudiniTools then r
  else { r with placementCategoryRegistered := true }

/-- Embeds `UnregisterPlacementModeExtensions` (lines 799-806): only when the
placement-mode module is available. -/
def unregisterPlacementModeExtensions (env : HostEnv) (r : EditorRegistrations) :
    EditorRegistrations :=
  if env.placementModeModuleAvailable then { r with placementCategoryRegistered := false }
  else r

/-- Embeds `FHoudiniEngineEditor::StartupModule` (lines 85-129): the registration
calls in source order (`RegisterModes` only under `HOUDINI_MODE`). -/
def startupModule (env : HostEnv) (r : EditorRegistrations) : EditorRegistrations :=
  let r := registerAssetTypeActions env r
  let r := registerAssetBrokers env r
  let r := registerComponentVisualizers env r
  let r := registerDetails env r
  let r := registerActorFactories env r
  let r := registerStyleSet env r
  let r := registerThumbnails env r
  let r := extendMenu env r
  let r := registerConsoleCommandsState env r
  let r := registerForUndo env r
  let r := if env.houdiniModeDefined then registerModes env r else r
  registerPlacementModeExtensions env r

/-- Embeds `FHoudiniEngineEditor::ShutdownModule` (lines 131-156): the
unregistration calls in source order (`UnregisterModes` only under
`HOUDINI_MODE`).  Note: `UnregisterAssetBrokers` and `UnregisterStyleSet`
exist in the source but are not called here, and nothing removes the actor
factory, the bound menu commands, the main-menu extender or the console
commands. -/
def shutdownModule (env : HostEnv) (r : EditorRegistrations) : EditorRegistrations :=
  let r := unregisterAssetTypeActions env r
  let r := unregisterDetails env r
  let r := unregisterThumbnails env r
  let r := unregisterComponentVisualizers env r
  let r := unregisterForUndo env r
  let r := if env.houdiniModeDefined then unregisterModes env r else r
  unregisterPlacementModeExtensions env r

/-- A host environment in which every editor subsystem the unregistration
guards test is available, the editor is not a commandlet, and the
placement-mode tools are not hidden. -/
def fullHost : HostEnv :=
  { gUnrealEd := true
    gEditor := true
    isRunningCommandlet := false
    propertyEditorModuleLoaded := true
    assetToolsModuleLoaded := true
    uObjectInitialized := true
    placementModeModuleAvailable := true
    houdiniModeDefined := true
    hidePlacementModeHoudiniTools := false }

/-- The state before `StartupModule`: nothing registered, no shared pointers
valid. -/
def initRegistrations : EditorRegistrations :=
  { assetTypeActionsRegistered := false
    assetBrokerRegistered := false
    splineVisualizerValid := false
    splineVisualizerRegistered := false
    handleVisualizerValid := false
    handleVisualizerRegistered := false
    detailsRegistered := false
    actorFactoryAdded := false
    styleSetValid := false
    styleSetRegistered := false
    thumbnailsRegistered := false
    menuCommandsBound := false
    mainMenuExtenderAdded := false
    consoleCommandsRegistered := false
    undoRegistered := false
    modesRegistered := false
    placementCategoryRegistered := false }

end Lifecycle

/-! ## SaveHIPFile (lines 444-485) and OpenInHoudini (lines 493-534) -/

/-- The calls these handlers issue into host or external APIs. -/
inductive HostCall
  | saveFileDialogCall
  | slateNotificationCall (msg : String)
  | hapiSaveHIPFileCall (path : String)
  | createProcCall (url args : String)
  deriving DecidableEq, Repr

/-- The host state `SaveHIPFile` reads: the `FDesktopPlatformModule::Get()`
pointer, `FHoudiniEngineUtils::IsInitialized()`, the return value of
`SaveFileDialog`, and the filename array that dialog fills in. -/
structure SaveHIPFileHost where
  desktopPlatform : Bool
  engineUtilsInitialized : Bool
  saveFileDialogResult : Bool
  saveFilenames : List String
  deriving DecidableEq, Repr

/-- Embeds `FHoudiniEngineEditor::SaveHIPFile` (lines 444-485) as the list of host
calls it issues: the dialog runs only when the desktop platform pointer is
non-null and the engine utilities are initialized; the notification and the
external `FHoudiniApi::SaveHIPFile` call happen only when the dialog
succeeded and returned at least one filename. -/
def saveHIPFile (host : SaveHIPFileHost) : List HostCall :=
  if host.desktopPlatform && host.engineUtilsInitialized then
    HostCall.saveFileDialogCall ::
      (if host.saveFileDialogResult && host.saveFilenames.length != 0 then
        [HostCall.slateNotificationCall "Saving internal Houdini scene...",
         HostCall.hapiSaveHIPFileCall (host.saveFilenames.headD "")]
      else [])
  else []

/-- The host state `OpenInHoudini` reads: `FHoudiniEngine::IsInitialized()`,
the temporary filename `FPaths::CreateTempFilename` produces, whether
`FPaths::FileExists` finds that file after the save call, and
`GetLibHAPILocation`. -/
structure OpenInHoudiniHost where
  engineInitialized : Bool
  userTempPath : String
  fileExistsAfterSave : Bool
  libHAPILocation : String
  deriving DecidableEq, Repr

/-- Embeds `FHoudiniEngineEditor::OpenInHoudini` (lines 493-534) as the list of host
calls it issues: returns at once when the engine is not initialized; saves
the scene to the temporary `.hip` file; returns when that file does not exist
on disk; otherwise launches Houdini on it with `CreateProc`. -/
def openInHoudini (host : OpenInHoudiniHost) : List HostCall :=
  if !host.engineInitialized then []
  else
    HostCall.hapiSaveHIPFileCall host.userTempPath ::
      (if !host.fileExistsAfterSave then []
       else
        [HostCall.slateNotificationCall "Opening scene in Houdini...",
         HostCall.createProcCall (host.libHAPILocation ++ "//houdini") host.userTempPath])

/-! ## CleanUpTempFolder (lines 860-989)

The routine scans the temporary cook folder, collects the assets whose
references would all disappear with the deletion, deletes them through
`ObjectTools`, and repeats while a pass deleted something.  The host object
graph is embedded explicitly: engine objects (packages, assets, referencers)
are identified by natural numbers, and the reference information the engine
APIs report about a loaded asset is a record. -/

/-- What `IsReferenced(..., true, &ReferencesIncludingUndo)` reports about one
loaded asset: its object identity, whether it is referenced by anything that
will not be garbage collected (undo stack included), and the `GetOuter()` of
each entry of `ReferencesIncludingUndo.ExternalReferences` (`none` models a
null outer). -/
structure AssetObjectInfo where
  objId : Nat
  referencedInMemoryOrUndoStack : Bool
  externalReferencerOuterIds : List (Option Nat)
  deriving DecidableEq, Repr

/-- An `FAssetData` listed in the temporary cook folder: `Data.GetPackage()`
(`none` models a null package), `Data.GetAsset()` (`none` models a failed
load), and whether the host calls `ObjectTools::DeleteAssets` /
`ObjectTools::ForceDeleteObjects` succeed in deleting it. -/
structure FAssetData where
  packageId : Option Nat
  assetObjId : Option Nat
  deleteSucceeds : Bool
  forceDeleteSucceeds : Bool
  deriving DecidableEq, Repr

/-- The asset registry: `GetAssetsByPackageName` for a package, each entry's
`GetAsset()` being `none` when the contained asset fails to load. -/
def AssetRegistry : Type := Nat → List (Option AssetObjectInfo)

/-- The inner search of lines 926-938: whether the external referencer's
outer object equals `DataToDelete.GetPackage()` or `DataToDelete.GetAsset()`
for some entry of the deletion list built so far. -/
def outerFoundInDeleteList (assetDataToDelete : List FAssetData) (outer : Option Nat) : Bool :=
  assetDataToDelete.any (fun d => d.packageId == outer || d.assetObjId == outer)

/-- Lines 907-947 for one contained asset: a contained asset blocks the
deletion of its package when it loads, is referenced in memory or on the undo
stack, and has an external referencer whose outer is not in the deletion list
built so far.  (A contained asset that fails to load is skipped; an asset
whose references are all internal has no external referencer and blocks
nothing.) -/
def assetInfoBlocksDeletion (assetDataToDelete : List FAssetData)
    (info : Option AssetObjectInfo) : Bool :=
  match info with
  | none => false
  | some a =>
    if !a.referencedInMemoryOrUndoStack then false
    else a.externalReferencerOuterIds.any
      (fun outer => !outerFoundInDeleteList assetDataToDelete outer)

/-- Embeds `bAssetDataSafeToDelete` after the loop over `AssetsInPackage`
(lines 903-947): no contained asset of the package blocks the deletion. -/
def bAssetDataSafeToDelete (reg : AssetRegistry) (assetDataToDelete : List FAssetData)
    (pkgId : Nat) : Bool :=
  (reg pkgId).all (fun info => !assetInfoBlocksDeletion assetDataToDelete info)

/-- The loop over `AssetDataList` (lines 897-951): assets with a null package
are skipped; an asset judged safe against the deletion list built so far is
appended to it. -/
def gatherAssetsToDelete (reg : AssetRegistry) (assetDataToDelete : List FAssetData) :
    List FAssetData → List FAssetData
  | [] => assetDataToDelete
  | data :: rest =>
    match data.packageId with
    | none => gatherAssetsToDelete reg assetDataToDelete rest
    | some pkgId =>
      if bAssetDataSafeToDelete reg assetDataToDelete pkgId then
        gatherAssetsToDelete reg (assetDataToDelete ++ [data]) rest
      else
        gatherAssetsToDelete reg assetDataToDelete rest

/-- Embeds `AssetDataToDelete` as built by one pass over the folder listing
`assetDataList`. -/
def assetDataToDeleteList (reg : AssetRegistry) (assetDataList : List FAssetData) :
    List FAssetData :=
  gatherAssetsToDelete reg [] assetDataList

/-- The assets `ObjectTools::DeleteAssets` (line 957) removes from the
deletion candidates; its return value is their number. -/
def deleteAssetsResult (toDelete : List FAssetData) : List FAssetData :=
  toDelete.filter (fun d => d.deleteSucceeds)

/-- The assets `ObjectTools::ForceDeleteObjects` (lines 959-974) removes: the
force-delete fallback runs over the candidates whose asset loads
(line 967). -/
def forceDeleteResult (toDelete : List FAssetData) : List FAssetData :=
  toDelete.filter (fun d => d.assetObjId.isSome && d.forceDeleteSucceeds)

/-- The assets one pass actually deletes (lines 957-974): the normal deletion
result, or, when it deleted nothing, the force-delete result.
`CurrentDeleted` is the length of this list. -/
def cleanPassDeleted (toDelete : List FAssetData) : List FAssetData :=
  let deleted := deleteAssetsResult toDelete
  if deleted.length ≤ 0 then forceDeleteResult toDelete else deleted

/-- The `while ( bDidDeleteAsset )` loop of `CleanUpTempFolder`
(lines 877-981).  Each pass lists the folder (`assets`), builds the deletion
candidates, and breaks when there are none (line 954); otherwise it deletes,
and repeats only when `CurrentDeleted > 0` (lines 976-980), the next pass
listing the folder without the deleted assets.  `deletedCount` and `passes`
accumulate `DeletedCount` and the number of passes performed. -/
def cleanUpTempFolderLoop (reg : AssetRegistry) (assets : List FAssetData)
    (deletedCount passes : Nat) : Nat × Nat :=
  if hlen : (assetDataToDeleteList reg assets).length ≤ 0 then
    (deletedCount, passes + 1)
  else if hdel : (cleanPassDeleted (assetDataToDeleteList reg assets)).length = 0 then
    (deletedCount, passes + 1)
  else
    cleanUpTempFolderLoop reg
      (assets.filter (fun a => !((cleanPassDeleted (assetDataToDeleteList reg assets)).contains a)))
      (deletedCount + (cleanPassDeleted (assetDataToDeleteList reg assets)).length)
      (passes + 1)
termination_by assets.length
decreasing_by
  have hgather : ∀ (l acc : List FAssetData) (x : FAssetData),
      x ∈ gatherAssetsToDelete reg acc l → x ∈ acc ∨ x ∈ l := by
    intro l
    induction l with
    | nil => intro acc x hx; exact Or.inl hx
    | cons d rest ih =>
      intro acc x hx
      rw [gatherAssetsToDelete] at hx
      rcases hpkg : d.packageId with _ | pkgId
      · rw [hpkg] at hx
        dsimp only at hx
        rcases ih acc x hx with h | h
        · exact Or.inl h
        · exact Or.inr (List.mem_cons_of_mem d h)
      · rw [hpkg] at hx
        dsimp only at hx
        by_cases hsafe : bAssetDataSafeToDelete reg acc pkgId
        · rw [if_pos hsafe] at hx
          rcases ih (acc ++ [d]) x hx with h | h
          · rcases List.mem_append.mp h with h2 | h2
            · exact Or.inl h2
            · exact Or.inr (List.mem_cons.mpr (Or.inl (List.mem_singleton.mp h2)))
          · exact Or.inr (List.mem_cons_of_mem d h)
        · rw [if_neg hsafe] at hx
          rcases ih acc x hx with h | h
          · exact Or.inl h
          · exact Or.inr (List.mem_cons_of_mem d h)
  have hne : cleanPassDeleted (assetDataToDeleteList reg assets) ≠ [] := by
    intro hnil
    exact hdel (by rw [hnil]; rfl)
  rcases List.exists_mem_of_ne_nil _ hne with ⟨a, ha⟩
  have hatod : a ∈ assetDataToDeleteList reg assets := by
    have : ∀ (l : List FAssetData), a ∈ cleanPassDeleted l → a ∈ l := by
      intro l hmem
      unfold cleanPassDeleted at hmem
      by_cases hc : (deleteAssetsResult l).length ≤ 0
      · rw [if_pos hc] at hmem
        exact List.mem_of_mem_filter hmem
      · rw [if_neg hc] at hmem
        exact List.mem_of_mem_filter hmem
    exact this _ ha
  have hasset : a ∈ assets := by
    rcases hgather assets [] a hatod with h | h
    · exact absurd h (List.not_mem_nil a)
    · exact h
  rw [List.length_filter_lt_length_iff_exists]
  refine ⟨a, hasset, ?_⟩
  simp only [Bool.not_eq_true, Bool.not_eq_false]
  simpa using ha

/-- Embeds `FHoudiniEngineEditor::CleanUpTempFolder` (lines 860-989): returns at
once when `GetDefault<UHoudiniRuntimeSettings>()` is null (lines 868-870),
performing no scan-and-delete pass; otherwise reads the temporary cook folder
from the settings and runs the scan-and-delete loop.  The result is `some`
of the final (`DeletedCount`, number of passes of the loop), or `none` for
the early return. -/
def cleanUpTempFolder (houdiniRuntimeSettings : Option String) (reg : AssetRegistry)
    (assets : List FAssetData) : Option (Nat × Nat) :=
  match houdiniRuntimeSettings with
  | none => none
  | some tempCookFolder => some (cleanUpTempFolderLoop reg assets 0 0)

/-! ## Concrete host states used by the witnesses -/

/-- A valid, idle component whose blueprint replacement succeeds. -/
def compEx : UHoudiniAssetComponent :=
  { isComponentValid := true
    isValidLowLevel := true
    isInstantiatingOrCooking := false
    replaceWithBlueprintSucceeds := true
    ticking := false }

/-- A selected Houdini asset actor owning `compEx`. -/
def actorEx : AActor :=
  { className := some "HoudiniAssetActor"
    houdiniAssetComponent := some (some compEx) }

/-- An editor with one selected Houdini asset actor. -/
def edEx : UEditorEngine :=
  { gEditorAvailable := true
    selectedActors := [some actorEx] }

/-- A save-dialog run that succeeded with one filename. -/
def hostEx : SaveHIPFileHost :=
  { desktopPlatform := true
    engineUtilsInitialized := true
    saveFileDialogResult := true
    saveFilenames := ["C:/Temp/scene.hip"] }

/-- An initialized engine whose temporary `.hip` file exists after saving. -/
def openHostEx : OpenInHoudiniHost :=
  { engineInitialized := true
    userTempPath := "T:/HoudiniEngine1a2b.hip"
    fileExistsAfterSave := true
    libHAPILocation := "C:/HFS/bin" }

/-- A registry in which package `5` holds one loaded, unreferenced asset. -/
def regEx : AssetRegistry := fun pkgId =>
  if pkgId = 5 then
    [some { objId := 10, referencedInMemoryOrUndoStack := false,
            externalReferencerOuterIds := [] }]
  else []

/-- A deletable temp asset living in package `5`. -/
def dataEx : FAssetData :=
  { packageId := some 5
    assetObjId := some 10
    deleteSucceeds := true
    forceDeleteSucceeds := true }

/-! ## Helper lemmas -/

/-- Every actor the selection loop collects has a class name other than
`BP_Sky_Sphere_C`. -/
theorem selectedWorldActors_not_skySphere (ed : UEditorEngine) :
    ∀ a ∈ selectedWorldActors ed, actorClassNameString a ≠ "BP_Sky_Sphere_C" := by
  unfold selectedWorldActors
  by_cases hg : ed.gEditorAvailable
  · rw [if_pos hg]
    have hfold : ∀ (l : List (Option AActor)) (acc : List AActor),
        (∀ a ∈ acc, actorClassNameString a ≠ "BP_Sky_Sphere_C") →
        ∀ a ∈ l.foldl worldSelectionStep acc, actorClassNameString a ≠ "BP_Sky_Sphere_C" := by
      intro l
      induction l with
      | nil => intro acc h; exact h
      | cons x xs ih =>
        intro acc h
        rw [List.foldl_cons]
        apply ih
        unfold worldSelectionStep
        rcases x with _ | actor
        · exact h
        · dsimp only
          by_cases hs : actorClassNameString actor == "BP_Sky_Sphere_C"
          · rw [if_pos hs]; exact h
          · rw [if_neg hs]
            intro a ha
            rcases List.mem_append.mp ha with h2 | h2
            · exact h a h2
            · rw [List.mem_singleton.mp h2]
              simpa using hs
    exact hfold ed.selectedActors [] (by intro a ha; exact absurd ha (List.not_mem_nil a))
  · rw [if_neg hg]
    intro a ha
    exact absurd ha (List.not_mem_nil a)

/-- Lemma: `bakeStep` preserves the bake invariant: the count equals the number of
successful replacement calls, and every call target is valid and idle. -/
theorem bakeStep_preserves (acc : Nat × List UHoudiniAssetComponent)
    (hac : UHoudiniAssetComponent)
    (h1 : acc.1 = (acc.2.filter (fun c => c.replaceWithBlueprintSucceeds)).length)
    (h2 : ∀ c ∈ acc.2, c.isComponentValid = true ∧ c.isInstantiatingOrCooking = false) :
    (bakeStep acc hac).1 =
      ((bakeStep acc hac).2.filter (fun c => c.replaceWithBlueprintSucceeds)).length ∧
    ∀ c ∈ (bakeStep acc hac).2,
      c.isComponentValid = true ∧ c.isInstantiatingOrCooking = false := by
  unfold bakeStep
  by_cases hv : hac.isComponentValid
  · by_cases hi : hac.isInstantiatingOrCooking
    · simp only [hv, hi, Bool.not_true, if_neg (by simp : ¬(false = true)),
        if_neg (by simp : ¬(false = true))]
      exact ⟨h1, h2⟩
    · have hi2 : hac.isInstantiatingOrCooking = false := by simpa using hi
      by_cases hsucc : hac.replaceWithBlueprintSucceeds
      · simp only [hv, hi2, Bool.not_true, Bool.not_false, if_neg (by simp : ¬(false = true)),
          if_pos rfl, if_pos hsucc]
        constructor
        · simp [List.filter_append, hsucc, h1]
        · intro c hc
          rcases List.mem_append.mp hc with h3 | h3
          · exact h2 c h3
          · rw [List.mem_singleton.mp h3]
            exact ⟨hv, hi2⟩
      · have hsucc2 : hac.replaceWithBlueprintSucceeds = false := by simpa using hsucc
        simp only [hv, hi2, Bool.not_true, Bool.not_false, if_neg (by simp : ¬(false = true)),
          if_pos rfl, if_neg hsucc]
        constructor
        · simp [List.filter_append, hsucc2, h1]
        · intro c hc
          rcases List.mem_append.mp hc with h3 | h3
          · exact h2 c h3
          · rw [List.mem_singleton.mp h3]
            exact ⟨hv, hi2⟩
  · have hv2 : hac.isComponentValid = false := by simpa using hv
    simp only [hv2, Bool.not_false, if_pos rfl]
    exact ⟨h1, h2⟩

/-- The bake invariant holds for any fold whose step either skips the element
or runs `bakeStep` on some component. -/
theorem bakeFold_sound {α : Type}
    (g : Nat × List UHoudiniAssetComponent → α → Nat × List UHoudiniAssetComponent)
    (hg : ∀ acc x, g acc x = acc ∨ ∃ hac, g acc x = bakeStep acc hac)
    (l : List α) :
    ∀ acc, acc.1 = (acc.2.filter (fun c => c.replaceWithBlueprintSucceeds)).length →
    (∀ c ∈ acc.2, c.isComponentValid = true ∧ c.isInstantiatingOrCooking = false) →
    (l.foldl g acc).1 =
      ((l.foldl g acc).2.filter (fun c => c.replaceWithBlueprintSucceeds)).length ∧
    ∀ c ∈ (l.foldl g acc).2,
      c.isComponentValid = true ∧ c.isInstantiatingOrCooking = false := by
  induction l with
  | nil => intro acc h1 h2; exact ⟨h1, h2⟩
  | cons x xs ih =>
    intro acc h1 h2
    rw [List.foldl_cons]
    rcases hg acc x with he | ⟨hac, he⟩
    · rw [he]; exact ih acc h1 h2
    · rw [he]
      rcases bakeStep_preserves acc hac h1 h2 with ⟨h3, h4⟩
      exact ih (bakeStep acc hac) h3 h4

/-! ## Claim theorems -/

/-- C9: `PauseAssetCooking` is an involution on the global cooking flag: one
call sets `EnableCookingGlobal` to its logical negation, so two successive
calls restore it, and `IsAssetCookingPaused` always returns the negation of
the current flag. -/
theorem pauseAssetCooking_involution (s : FHoudiniEngineState) :
    (pauseAssetCooking (pauseAssetCooking s)).enableCookingGlobal = s.enableCookingGlobal ∧
    (pauseAssetCooking s).enableCookingGlobal = (!s.enableCookingGlobal) ∧
    isAssetCookingPaused s = (!s.enableCookingGlobal) := by
  cases hc : s.enableCookingGlobal <;>
    simp [pauseAssetCooking, isAssetCookingPaused, hc]

/-- C10: `GetWorldSelection` first empties its output array (the result does
not depend on the array's previous contents) and returns exactly the length
of the array it filled; with `bHoudiniAssetActorsOnly` every returned actor
is an `AHoudiniAssetActor`; and no actor of class `BP_Sky_Sphere_C` ever
appears in the output. -/
theorem getWorldSelection_correct (ed : UEditorEngine) (worldSelection : List AActor)
    (bHoudiniAssetActorsOnly : Bool) :
    (getWorldSelection ed worldSelection bHoudiniAssetActorsOnly).2 =
      (getWorldSelection ed worldSelection bHoudiniAssetActorsOnly).1.length ∧
    getWorldSelection ed worldSelection bHoudiniAssetActorsOnly =
      getWorldSelection ed [] bHoudiniAssetActorsOnly ∧
    (∀ a ∈ (getWorldSelection ed worldSelection true).1,
      a.houdiniAssetComponent.isSome = true) ∧
    (∀ a ∈ (getWorldSelection ed worldSelection bHoudiniAssetActorsOnly).1,
      actorClassNameString a ≠ "BP_Sky_Sphere_C") := by
  refine ⟨rfl, rfl, ?_, ?_⟩
  · intro a ha
    unfold getWorldSelection at ha
    dsimp only at ha
    rw [if_pos rfl] at ha
    exact (List.mem_filter.mp ha).2
  · intro a ha
    unfold getWorldSelection at ha
    dsimp only at ha
    apply selectedWorldActors_not_skySphere ed a
    by_cases ho : bHoudiniAssetActorsOnly
    · rw [if_pos ho] at ha
      exact List.mem_of_mem_filter ha
    · rw [if_neg ho] at ha
      exact ha

/-- C10 witness: the concrete selected actor appears in the output, is a
Houdini asset actor, and is not the sky sphere. -/
theorem getWorldSelection_correct_witness :
    actorEx.houdiniAssetComponent.isSome = true ∧
    actorClassNameString actorEx ≠ "BP_Sky_Sphere_C" :=
  ⟨(getWorldSelection_correct edEx [] true).2.2.1 actorEx (by decide),
   (getWorldSelection_correct edEx [] true).2.2.2 actorEx (by decide)⟩

/-- C6: `BakeAllAssets` and `BakeSelection` call
`ReplaceHoudiniActorWithBlueprint` only on non-null, valid components that
are not instantiating or cooking, and the `BakedCount` each reports equals
exactly the number of replacement calls that returned success. -/
theorem bake_workflows_correct (components : List (Option UHoudiniAssetComponent))
    (ed : UEditorEngine) :
    ((bakeAllAssets components).1 =
        ((bakeAllAssets components).2.filter (fun c => c.replaceWithBlueprintSucceeds)).length ∧
      ∀ c ∈ (bakeAllAssets components).2,
        c.isComponentValid = true ∧ c.isInstantiatingOrCooking = false) ∧
    ((bakeSelection ed).1 =
        ((bakeSelection ed).2.filter (fun c => c.replaceWithBlueprintSucceeds)).length ∧
      ∀ c ∈ (bakeSelection ed).2,
        c.isComponentValid = true ∧ c.isInstantiatingOrCooking = false) := by
  constructor
  · unfold bakeAllAssets
    apply bakeFold_sound
    · intro acc x
      rcases x with _ | hac
      · exact Or.inl rfl
      · exact Or.inr ⟨hac, rfl⟩
    · rfl
    · intro c hc; exact absurd hc (List.not_mem_nil c)
  · unfold bakeSelection
    by_cases hsel : (getWorldSelection ed [] true).2 ≤ 0
    · rw [if_pos hsel]
      exact ⟨rfl, fun c hc => absurd hc (List.not_mem_nil c)⟩
    · rw [if_neg hsel]
      apply bakeFold_sound
      · intro acc actor
        rcases actor.houdiniAssetComponent with _ | hc
        · exact Or.inl (by simp [*])
        · rcases hc with _ | hac
          · exact Or.inl (by simp [*])
          · exact Or.inr ⟨hac, by simp [*]⟩
      · rfl
      · intro c hc; exact absurd hc (List.not_mem_nil c)

/-- C6 witness: at a concrete run, the baked component is valid and idle. -/
theorem bake_workflows_correct_witness :
    compEx.isComponentValid = true ∧ compEx.isInstantiatingOrCooking = false :=
  (bake_workflows_correct [some compEx] edEx).1.2 compEx (by decide)

/-- C7 counterexample: `Houdini.CookAll` is a registered console command
whose handler, `RecookAllAssets`, is bound to no UI command at all, so it
cannot forward to "the same handler function as the corresponding UI
command". -/
theorem consoleCommand_without_ui_command :
    ("Houdini.CookAll", CommandHandler.recookAllAssets) ∈ registerConsoleCommands ∧
    bindMenuCommands.all (fun p => p.2 != CommandHandler.recookAllAssets) = true := by
  decide

/-- C7 (amended): save HIP, open in Houdini, report bug, clean temp folder,
bake all and pause cooking are bound UI commands, all but report bug also
named console commands with the same handler; `Houdini.Cook`,
`Houdini.Rebuild` and `Houdini.Bake` forward to the handlers of the
`CookSelec`, `RebuildSelec` and `BakeSelec` UI commands; `Houdini.CookAll`
and `Houdini.RebuildAll` are console-only, forwarding to `RecookAllAssets`
and `RebuildAllAssets`, which no UI command is bound to. -/
theorem command_registration_tables :
    (UICommand.OpenInHoudini, CommandHandler.openInHoudini) ∈ bindMenuCommands ∧
    (UICommand.SaveHIPFile, CommandHandler.saveHIPFile) ∈ bindMenuCommands ∧
    (UICommand.ReportBug, CommandHandler.reportBug) ∈ bindMenuCommands ∧
    (UICommand.CleanUpTempFolder, CommandHandler.cleanUpTempFolder) ∈ bindMenuCommands ∧
    (UICommand.BakeAllAssets, CommandHandler.bakeAllAssets) ∈ bindMenuCommands ∧
    (UICommand.PauseAssetCooking, CommandHandler.pauseAssetCooking) ∈ bindMenuCommands ∧
    (UICommand.CookSelec, CommandHandler.recookSelection) ∈ bindMenuCommands ∧
    (UICommand.RebuildSelec, CommandHandler.rebuildSelection) ∈ bindMenuCommands ∧
    (UICommand.BakeSelec, CommandHandler.bakeSelection) ∈ bindMenuCommands ∧
    ("Houdini.Open", CommandHandler.openInHoudini) ∈ registerConsoleCommands ∧
    ("Houdini.Save", CommandHandler.saveHIPFile) ∈ registerConsoleCommands ∧
    ("Houdini.Clean", CommandHandler.cleanUpTempFolder) ∈ registerConsoleCommands ∧
    ("Houdini.BakeAll", CommandHandler.bakeAllAssets) ∈ registerConsoleCommands ∧
    ("Houdini.Pause", CommandHandler.pauseAssetCooking) ∈ registerConsoleCommands ∧
    ("Houdini.Cook", CommandHandler.recookSelection) ∈ registerConsoleCommands ∧
    ("Houdini.Rebuild", CommandHandler.rebuildSelection) ∈ registerConsoleCommands ∧
    ("Houdini.Bake", CommandHandler.bakeSelection) ∈ registerConsoleCommands ∧
    ("Houdini.CookAll", CommandHandler.recookAllAssets) ∈ registerConsoleCommands ∧
    ("Houdini.RebuildAll", CommandHandler.rebuildAllAssets) ∈ registerConsoleCommands ∧
    registerConsoleCommands.all (fun p => p.2 != CommandHandler.reportBug) = true ∧
    bindMenuCommands.all (fun p =>
      p.2 != CommandHandler.recookAllAssets && p.2 != CommandHandler.rebuildAllAssets) = true := by
  repeat' apply And.intro
  all_goals decide

/-- C3 counterexample: after a startup/shutdown pair in a host where every
subsystem is available, the asset broker, actor factory, Slate style set,
bound menu commands, main-menu extender and console commands all remain
registered, refuting that no Houdini extension remains registered. -/
theorem startup_shutdown_leaves_registrations :
    (Lifecycle.shutdownModule Lifecycle.fullHost
        (Lifecycle.startupModule Lifecycle.fullHost Lifecycle.initRegistrations)).assetBrokerRegistered
        = true ∧
    (Lifecycle.shutdownModule Lifecycle.fullHost
        (Lifecycle.startupModule Lifecycle.fullHost Lifecycle.initRegistrations)).actorFactoryAdded
        = true ∧
    (Lifecycle.shutdownModule Lifecycle.fullHost
        (Lifecycle.startupModule Lifecycle.fullHost Lifecycle.initRegistrations)).styleSetRegistered
        = true ∧
    (Lifecycle.shutdownModule Lifecycle.fullHost
        (Lifecycle.startupModule Lifecycle.fullHost Lifecycle.initRegistrations)).menuCommandsBound
        = true ∧
    (Lifecycle.shutdownModule Lifecycle.fullHost
        (Lifecycle.startupModule Lifecycle.fullHost Lifecycle.initRegistrations)).mainMenuExtenderAdded
        = true ∧
    (Lifecycle.shutdownModule Lifecycle.fullHost
        (Lifecycle.startupModule Lifecycle.fullHost Lifecycle.initRegistrations)).consoleCommandsRegistered
        = true := by
  decide

/-- C3 (amended): in a fully available host, `ShutdownModule` unregisters the
asset type actions, detail customizers, thumbnail renderer, component
visualizers, undo hooks, editor modes and placement category that
`StartupModule` registered, but the asset broker, actor factory, Slate style
set, bound menu commands, main-menu extension and console commands remain
registered. -/
theorem startup_shutdown_pair_amended :
    Lifecycle.shutdownModule Lifecycle.fullHost
        (Lifecycle.startupModule Lifecycle.fullHost Lifecycle.initRegistrations) =
      { assetTypeActionsRegistered := false
        assetBrokerRegistered := true
        splineVisualizerValid := true
        splineVisualizerRegistered := false
        handleVisualizerValid := true
        handleVisualizerRegistered := false
        detailsRegistered := false
        actorFactoryAdded := true
        styleSetValid := true
        styleSetRegistered := true
        thumbnailsRegistered := false
        menuCommandsBound := true
        mainMenuExtenderAdded := true
        consoleCommandsRegistered := true
        undoRegistered := false
        modesRegistered := false
        placementCategoryRegistered := false } := by
  decide

/-- C4: the command handlers guard their forwarding calls: `SaveHIPFile`
issues the external `FHoudiniApi::SaveHIPFile` call only when the desktop
platform pointer is non-null, the engine utilities are initialized, the save
dialog succeeded and returned at least one filename; `CleanUpTempFolder`
returns at once, running no deletion pass, when the runtime settings object
is null. -/
theorem command_handlers_guarded (host : SaveHIPFileHost) (path : String)
    (reg : AssetRegistry) (assets : List FAssetData) :
    (HostCall.hapiSaveHIPFileCall path ∈ saveHIPFile host →
      host.desktopPlatform = true ∧ host.engineUtilsInitialized = true ∧
      host.saveFileDialogResult = true ∧ host.saveFilenames ≠ []) ∧
    cleanUpTempFolder none reg assets = none := by
  constructor
  · intro hmem
    unfold saveHIPFile at hmem
    by_cases h1 : host.desktopPlatform && host.engineUtilsInitialized
    · rw [if_pos h1] at hmem
      rw [Bool.and_eq_true] at h1
      rcases h1 with ⟨hd, he⟩
      by_cases h2 : host.saveFileDialogResult && host.saveFilenames.length != 0
      · rw [Bool.and_eq_true] at h2
        rcases h2 with ⟨hs, hn⟩
        refine ⟨hd, he, hs, ?_⟩
        intro hnil
        rw [hnil] at hn
        simp at hn
      · rw [if_neg h2] at hmem
        simp at hmem
    · rw [if_neg h1] at hmem
      exact absurd hmem (List.not_mem_nil _)
  · rfl

/-- C4 witness: a successful dialog run satisfies all four guards. -/
theorem command_handlers_guarded_witness :
    hostEx.desktopPlatform = true ∧ hostEx.engineUtilsInitialized = true ∧
    hostEx.saveFileDialogResult = true ∧ hostEx.saveFilenames ≠ [] :=
  (command_handlers_guarded hostEx "C:/Temp/scene.hip" (fun _ => []) []).1 (by decide)

/-- C5: `OpenInHoudini` creates the external Houdini process only after
saving the scene to the temporary `.hip` file: it issues no calls when the
engine is not initialized, and when it does launch, the trace is exactly the
save call followed by the notification and the process launch (so the launch
requires the file to exist after the save). -/
theorem openInHoudini_guarded (host : OpenInHoudiniHost) :
    (host.engineInitialized = false → openInHoudini host = []) ∧
    (HostCall.createProcCall (host.libHAPILocation ++ "//houdini") host.userTempPath ∈
        openInHoudini host →
      host.engineInitialized = true ∧ host.fileExistsAfterSave = true ∧
      openInHoudini host =
        [HostCall.hapiSaveHIPFileCall host.userTempPath,
         HostCall.slateNotificationCall "Opening scene in Houdini...",
         HostCall.createProcCall (host.libHAPILocation ++ "//houdini") host.userTempPath]) := by
  constructor
  · intro h
    unfold openInHoudini
    rw [h]
    simp
  · intro hmem
    unfold openInHoudini at hmem ⊢
    by_cases h1 : host.engineInitialized
    · by_cases h2 : host.fileExistsAfterSave
      · refine ⟨h1, h2, ?_⟩
        rw [h1, h2]
        simp
      · have h2f : host.fileExistsAfterSave = false := by simpa using h2
        rw [h1, h2f] at hmem
        simp at hmem
    · have h1f : host.engineInitialized = false := by simpa using h1
      rw [h1f] at hmem
      simp at hmem

/-- C5 witness: a concrete initialized run whose temp file exists produces
exactly the save-then-launch trace. -/
theorem openInHoudini_guarded_witness :
    openHostEx.engineInitialized = true ∧ openHostEx.fileExistsAfterSave = true ∧
    openInHoudini openHostEx =
      [HostCall.hapiSaveHIPFileCall openHostEx.userTempPath,
       HostCall.slateNotificationCall "Opening scene in Houdini...",
       HostCall.createProcCall (openHostEx.libHAPILocation ++ "//houdini")
         openHostEx.userTempPath] :=
  (openInHoudini_guarded openHostEx).2 (by decide)

/-- Every element of the gathered deletion list comes from the accumulator or
from the scanned folder listing. -/
theorem gatherAssetsToDelete_mem (reg : AssetRegistry) :
    ∀ (l acc : List FAssetData) (x : FAssetData),
      x ∈ gatherAssetsToDelete reg acc l → x ∈ acc ∨ x ∈ l := by
  intro l
  induction l with
  | nil => intro acc x hx; exact Or.inl hx
  | cons d rest ih =>
    intro acc x hx
    rw [gatherAssetsToDelete] at hx
    rcases hpkg : d.packageId with _ | pkgId
    · rw [hpkg] at hx
      dsimp only at hx
      rcases ih acc x hx with h | h
      · exact Or.inl h
      · exact Or.inr (List.mem_cons_of_mem d h)
    · rw [hpkg] at hx
      dsimp only at hx
      by_cases hsafe : bAssetDataSafeToDelete reg acc pkgId
      · rw [if_pos hsafe] at hx
        rcases ih (acc ++ [d]) x hx with h | h
        · rcases List.mem_append.mp h with h2 | h2
          · exact Or.inl h2
          · exact Or.inr (List.mem_cons.mpr (Or.inl (List.mem_singleton.mp h2)))
        · exact Or.inr (List.mem_cons_of_mem d h)
      · rw [if_neg hsafe] at hx
        rcases ih acc x hx with h | h
        · exact Or.inl h
        · exact Or.inr (List.mem_cons_of_mem d h)

/-- The accumulator only grows: everything already gathered stays in the
gathered deletion list. -/
theorem gatherAssetsToDelete_sub (reg : AssetRegistry) :
    ∀ (l acc : List FAssetData) (y : FAssetData),
      y ∈ acc → y ∈ gatherAssetsToDelete reg acc l := by
  intro l
  induction l with
  | nil => intro acc y hy; exact hy
  | cons d rest ih =>
    intro acc y hy
    rw [gatherAssetsToDelete]
    rcases hpkg : d.packageId with _ | pkgId
    · exact ih acc y hy
    · dsimp only
      by_cases hsafe : bAssetDataSafeToDelete reg acc pkgId
      · rw [if_pos hsafe]
        exact ih (acc ++ [d]) y (List.mem_append.mpr (Or.inl hy))
      · rw [if_neg hsafe]
        exact ih acc y hy

/-- The assets one pass deletes are deletion candidates of that pass. -/
theorem cleanPassDeleted_sub (toDelete : List FAssetData) (a : FAssetData)
    (ha : a ∈ cleanPassDeleted toDelete) : a ∈ toDelete := by
  unfold cleanPassDeleted at ha
  by_cases hc : (deleteAssetsResult toDelete).length ≤ 0
  · rw [if_pos hc] at ha
    exact List.mem_of_mem_filter ha
  · rw [if_neg hc] at ha
    exact List.mem_of_mem_filter ha

/-- Growing the deletion list preserves a found outer. -/
theorem outerFoundInDeleteList_mono (l1 l2 : List FAssetData) (outer : Option Nat)
    (hsub : ∀ d ∈ l1, d ∈ l2) (h : outerFoundInDeleteList l1 outer = true) :
    outerFoundInDeleteList l2 outer = true := by
  unfold outerFoundInDeleteList at h ⊢
  rcases List.any_eq_true.mp h with ⟨d, hd, hp⟩
  exact List.any_eq_true.mpr ⟨d, hsub d hd, hp⟩

/-- Reading off the safety check: a loaded contained asset of a safe package
is either unreferenced or all its external referencer outers are found in the
deletion list the check ran against. -/
theorem bAssetDataSafeToDelete_spec (reg : AssetRegistry) (acc : List FAssetData)
    (pkgId : Nat) (hsafe : bAssetDataSafeToDelete reg acc pkgId = true) :
    ∀ info ∈ reg pkgId, ∀ a, info = some a →
      a.referencedInMemoryOrUndoStack = false ∨
      ∀ outer ∈ a.externalReferencerOuterIds,
        outerFoundInDeleteList acc outer = true := by
  intro info hinfo a hia
  have hblock := List.all_eq_true.mp hsafe info hinfo
  rw [hia] at hblock
  unfold assetInfoBlocksDeletion at hblock
  dsimp only at hblock
  by_cases hr : a.referencedInMemoryOrUndoStack
  · right
    rw [hr] at hblock
    simp at hblock
    intro outer ho
    exact hblock outer ho
  · left
    simpa using hr

/-- Every element of the gathered list was judged safe against the list
gathered so far, and that judgement persists against the final list. -/
theorem gatherAssetsToDelete_sound (reg : AssetRegistry) :
    ∀ (l acc : List FAssetData) (d : FAssetData),
      d ∈ gatherAssetsToDelete reg acc l →
      d ∈ acc ∨ ∃ pkgId, d.packageId = some pkgId ∧
        ∀ info ∈ reg pkgId, ∀ a, info = some a →
          a.referencedInMemoryOrUndoStack = false ∨
          ∀ outer ∈ a.externalReferencerOuterIds,
            outerFoundInDeleteList (gatherAssetsToDelete reg acc l) outer = true := by
  intro l
  induction l with
  | nil => intro acc d hd; exact Or.inl hd
  | cons d0 rest ih =>
    intro acc d hd
    rw [gatherAssetsToDelete] at hd ⊢
    rcases hpkg : d0.packageId with _ | pkgId
    · rw [hpkg] at hd
      dsimp only at hd ⊢
      exact ih acc d hd
    · rw [hpkg] at hd
      dsimp only at hd ⊢
      by_cases hsafe : bAssetDataSafeToDelete reg acc pkgId
      · rw [if_pos hsafe] at hd ⊢
        rcases ih (acc ++ [d0]) d hd with h | ⟨pk, hpk, hprop⟩
        · rcases List.mem_append.mp h with h2 | h2
          · exact Or.inl h2
          · right
            refine ⟨pkgId, by rw [List.mem_singleton.mp h2]; exact hpkg, ?_⟩
            intro info hinfo a hia
            rcases bAssetDataSafeToDelete_spec reg acc pkgId hsafe info hinfo a hia with
              hu | hf
            · exact Or.inl hu
            · right
              intro outer ho
              refine outerFoundInDeleteList_mono acc _ outer ?_ (hf outer ho)
              intro x hx
              exact gatherAssetsToDelete_sub reg rest (acc ++ [d0]) x
                (List.mem_append.mpr (Or.inl hx))
        · exact Or.inr ⟨pk, hpk, hprop⟩
      · rw [if_neg hsafe] at hd ⊢
        exact ih acc d hd

/-- C2: in every pass of `CleanUpTempFolder`, an asset is added to the
deletion list only if each of its loaded contained assets either has no
in-memory/undo-stack references, or every external referencer's outer object
equals the package or asset of an entry of that pass's deletion list;
contrapositively, an asset one of whose contained assets has an external
referencer outside the deletion list is kept. -/
theorem cleanUpTempFolder_deleteList_sound (reg : AssetRegistry)
    (assetDataList : List FAssetData) (data : FAssetData)
    (hmem : data ∈ assetDataToDeleteList reg assetDataList) :
    ∃ pkgId, data.packageId = some pkgId ∧
      ∀ info ∈ reg pkgId, ∀ a, info = some a →
        a.referencedInMemoryOrUndoStack = false ∨
        ∀ outer ∈ a.externalReferencerOuterIds,
          outerFoundInDeleteList (assetDataToDeleteList reg assetDataList) outer = true := by
  rcases gatherAssetsToDelete_sound reg assetDataList [] data hmem with h | h
  · exact absurd h (List.not_mem_nil data)
  · exact h

/-- C2 witness: a concrete unreferenced asset is gathered, and the soundness
property holds of it. -/
theorem cleanUpTempFolder_deleteList_sound_witness :
    dataEx ∈ assetDataToDeleteList regEx [dataEx] ∧
    ∃ pkgId, dataEx.packageId = some pkgId ∧
      ∀ info ∈ regEx pkgId, ∀ a, info = some a →
        a.referencedInMemoryOrUndoStack = false ∨
        ∀ outer ∈ a.externalReferencerOuterIds,
          outerFoundInDeleteList (assetDataToDeleteList regEx [dataEx]) outer = true :=
  ⟨by decide, cleanUpTempFolder_deleteList_sound regEx [dataEx] dataEx (by decide)⟩

/-- The pass count of the cleanup loop is bounded: each continuing pass
removes at least one asset from the folder. -/
theorem cleanUpTempFolderLoop_passes_le (reg : AssetRegistry) :
    ∀ (n : Nat) (assets : List FAssetData), assets.length ≤ n →
    ∀ (dc p : Nat), (cleanUpTempFolderLoop reg assets dc p).2 ≤ p + assets.length + 1 := by
  intro n
  induction n with
  | zero =>
    intro assets hlen dc p
    have hnil : assets = [] := List.eq_nil_of_length_eq_zero (Nat.le_zero.mp hlen)
    subst hnil
    rw [cleanUpTempFolderLoop]
    simp [assetDataToDeleteList, gatherAssetsToDelete]
  | succ n ih =>
    intro assets hlen dc p
    rw [cleanUpTempFolderLoop]
    by_cases h1 : (assetDataToDeleteList reg assets).length ≤ 0
    · rw [dif_pos h1]
      omega
    · rw [dif_neg h1]
      by_cases h2 : (cleanPassDeleted (assetDataToDeleteList reg assets)).length = 0
      · rw [dif_pos h2]
        omega
      · rw [dif_neg h2]
        have hne : cleanPassDeleted (assetDataToDeleteList reg assets) ≠ [] := by
          intro hnil
          exact h2 (by rw [hnil]; rfl)
        rcases List.exists_mem_of_ne_nil _ hne with ⟨a, ha⟩
        have hasset : a ∈ assets := by
          rcases gatherAssetsToDelete_mem reg assets [] a
              (cleanPassDeleted_sub _ a ha) with h | h
          · exact absurd h (List.not_mem_nil a)
          · exact h
        have hlt : (assets.filter (fun x =>
            !((cleanPassDeleted (assetDataToDeleteList reg assets)).contains x))).length <
            assets.length := by
          rw [List.length_filter_lt_length_iff_exists]
          refine ⟨a, hasset, ?_⟩
          simp only [Bool.not_eq_true, Bool.not_eq_false]
          simpa using ha
        have hb := ih (assets.filter (fun x =>
            !((cleanPassDeleted (assetDataToDeleteList reg assets)).contains x)))
          (by omega)
          (dc + (cleanPassDeleted (assetDataToDeleteList reg assets)).length) (p + 1)
        omega

/-- C1: the scan-and-delete loop of `CleanUpTempFolder` terminates: it exits
as soon as the candidate deletion list is empty or a pass deletes nothing,
and in every run it performs at most one pass more than the number of assets
in the folder. -/
theorem cleanUpTempFolder_terminates (reg : AssetRegistry) (assets : List FAssetData)
    (dc p : Nat) :
    (cleanUpTempFolderLoop reg assets dc p).2 ≤ p + assets.length + 1 ∧
    ((assetDataToDeleteList reg assets).length ≤ 0 →
      cleanUpTempFolderLoop reg assets dc p = (dc, p + 1)) ∧
    ((cleanPassDeleted (assetDataToDeleteList reg assets)).length = 0 →
      cleanUpTempFolderLoop reg assets dc p = (dc, p + 1)) := by
  refine ⟨cleanUpTempFolderLoop_passes_le reg assets.length assets (Nat.le_refl _) dc p,
    ?_, ?_⟩
  · intro h
    rw [cleanUpTempFolderLoop]
    rw [dif_pos h]
  · intro h
    rw [cleanUpTempFolderLoop]
    by_cases h1 : (assetDataToDeleteList reg assets).length ≤ 0
    · rw [dif_pos h1]
    · rw [dif_neg h1, dif_pos h]

/-- C1 witness: on an empty folder the loop stops after a single pass. -/
theorem cleanUpTempFolder_terminates_witness :
    (assetDataToDeleteList (fun x => ([] : List (Option AssetObjectInfo))) []).length ≤ 0 ∧
    cleanUpTempFolderLoop (fun x => ([] : List (Option AssetObjectInfo))) [] 0 0 = (0, 1) :=
  ⟨Nat.le_refl 0,
   (cleanUpTempFolder_terminates (fun x => ([] : List (Option AssetObjectInfo))) [] 0 0).2.1
     (Nat.le_refl 0)⟩

end HoudiniEngineEditor







